import Mathlib

/-!
Shallow embedding of the memory subsystem of the mini-6502 emulator
(files src/devices/memory.rs and src/devices/memory_map.rs).

Modelling conventions:
- u8, u16 and u32 machine values are modelled as Nat. All u32 quantities in
  the source (sizes, offsets, widened addresses) stay far below 2 to the 32 in
  every reachable configuration, so u32 additions are modelled as plain Nat
  additions. The one numeric conversion that does matter is the u32-to-u16
  truncation in the Index implementations, which is modelled explicitly as
  mod 65536.
- A Rust panic (vector index out of bounds, or checked u16 subtraction
  underflow in the Index implementations) is modelled as the value none of an
  Option; a normal return r is some r.
- Result of the source becomes Except; mutation of self becomes explicit
  state passing, returning the new state together with the result.
- Vec of u8 becomes List Nat.
-/

deriving instance DecidableEq for Except

namespace Remu6502

/-- Memory device kinds, from enum MemoryType in memory.rs. -/
inductive MemoryType where
  | RAM
  | ROM
  | MMIO
  deriving DecidableEq

/-- Device level errors, from enum MemoryError in memory.rs. -/
inductive MemoryError where
  | OutOfBounds
  | Overlap
  | ReadOnly
  | WriteOnly
  | Unmapped
  deriving DecidableEq

abbrev MemoryReadResult := Except MemoryError Nat

abbrev MemoryWriteResult := Except MemoryError Unit

/-- Read only memory device, from struct ROM in memory.rs. -/
structure ROM where
  data : List Nat
  size : Nat
  offset : Nat
  deriving DecidableEq

/-- Constructor ROM::new: stores the three fields exactly as given, with no
length check and no padding. -/
def ROM.new (data : List Nat) (size offset : Nat) : ROM :=
  { data := data, size := size, offset := offset }

/-- ROM::read: bounds check against the half open range, then an unchecked
vector index (a panic, modelled as none, when the backing vector is shorter
than the checked range allows). -/
def ROM.read (r : ROM) (address : Nat) : Option MemoryReadResult :=
  if r.offset ≤ address ∧ address < r.offset + r.size then
    match r.data[address - r.offset]? with
    | some b => some (Except.ok b)
    | none => none
  else
    some (Except.error MemoryError.OutOfBounds)

/-- ROM::write: ignores the write and always succeeds. -/
def ROM.write (r : ROM) (_address _value : Nat) : ROM × MemoryWriteResult :=
  (r, Except.ok ())

/-- ROM::type_of. -/
def ROM.type_of (_r : ROM) : MemoryType :=
  MemoryType.ROM

/-- The copy loop shared by ROM::load and RAM::load:
for i in 0..data.len() braces self.data[i] = data[i]. The destination has
already been resized, so when src is no longer than dst every set lands in
bounds, exactly as in the source. -/
def copyLoop (dst src : List Nat) : List Nat :=
  (List.range src.length).foldl (fun acc i => acc.set i (src.getD i 0)) dst

/-- ROM::load: reject images longer than size, otherwise clear, resize to
size filled with zeros, then copy the image into the low indices. -/
def ROM.load (r : ROM) (data : List Nat) : ROM × MemoryWriteResult :=
  if data.length > r.size then
    (r, Except.error MemoryError.OutOfBounds)
  else
    ({ r with data := copyLoop (List.replicate r.size 0) data }, Except.ok ())

/-- Index of u16 for ROM: let offset = self.offset as u16 (a u32 to u16
truncation, mod 65536), then an unchecked vector access at index - offset.
The u16 subtraction is modelled with checked (debug) semantics: underflow is
a panic, hence none; an out of bounds vector access is likewise none. -/
def ROM.index (r : ROM) (index : Nat) : Option Nat :=
  let offset := r.offset % 65536
  if index < offset then none
  else r.data[index - offset]?

/-- Random access memory device, from struct RAM in memory.rs. -/
structure RAM where
  data : List Nat
  size : Nat
  offset : Nat
  deriving DecidableEq

/-- Constructor RAM::new: stores the three fields exactly as given, with no
length check and no padding. -/
def RAM.new (data : List Nat) (size offset : Nat) : RAM :=
  { data := data, size := size, offset := offset }

/-- RAM::read, identical in shape to ROM::read. -/
def RAM.read (r : RAM) (address : Nat) : Option MemoryReadResult :=
  if r.offset ≤ address ∧ address < r.offset + r.size then
    match r.data[address - r.offset]? with
    | some b => some (Except.ok b)
    | none => none
  else
    some (Except.error MemoryError.OutOfBounds)

/-- RAM::write: bounds check against the half open range, then an unchecked
vector store (a panic, modelled as none, when the backing vector is shorter
than the checked range allows). -/
def RAM.write (r : RAM) (address value : Nat) : Option (RAM × MemoryWriteResult) :=
  if r.offset ≤ address ∧ address < r.offset + r.size then
    if address - r.offset < r.data.length then
      some ({ r with data := r.data.set (address - r.offset) value }, Except.ok ())
    else none
  else
    some (r, Except.error MemoryError.OutOfBounds)

/-- RAM::type_of. -/
def RAM.type_of (_r : RAM) : MemoryType :=
  MemoryType.RAM

/-- RAM::load, identical in shape to ROM::load. -/
def RAM.load (r : RAM) (data : List Nat) : RAM × MemoryWriteResult :=
  if data.length > r.size then
    (r, Except.error MemoryError.OutOfBounds)
  else
    ({ r with data := copyLoop (List.replicate r.size 0) data }, Except.ok ())

/-- Index of u16 for RAM, identical in shape to the ROM instance. -/
def RAM.index (r : RAM) (index : Nat) : Option Nat :=
  let offset := r.offset % 65536
  if index < offset then none
  else r.data[index - offset]?

/-- IndexMut of u16 for RAM followed by a store through the returned
reference, i.e. the effect of device[index] = value. -/
def RAM.index_mut_set (r : RAM) (index value : Nat) : Option RAM :=
  let offset := r.offset % 65536
  if index < offset then none
  else if index - offset < r.data.length then
    some { r with data := r.data.set (index - offset) value }
  else none

/-- A boxed dyn Memory trait object. The only implementors in the crate are
ROM and RAM, so the trait object is a closed sum. -/
inductive Device where
  | rom : ROM → Device
  | ram : RAM → Device
  deriving DecidableEq

/-- Dynamic dispatch of Memory::read. -/
def Device.read : Device → Nat → Option MemoryReadResult
  | Device.rom r, a => r.read a
  | Device.ram r, a => r.read a

/-- Dynamic dispatch of Memory::write. -/
def Device.write : Device → Nat → Nat → Option (Device × MemoryWriteResult)
  | Device.rom r, a, v => some (Device.rom (r.write a v).1, (r.write a v).2)
  | Device.ram r, a, v => (r.write a v).map fun p => (Device.ram p.1, p.2)

/-- Dynamic dispatch of Memory::type_of. -/
def Device.type_of : Device → MemoryType
  | Device.rom r => r.type_of
  | Device.ram r => r.type_of

/-- Router level errors, from enum MemoryMapError in memory_map.rs. -/
inductive MemoryMapError where
  | Overlap
  | OutOfBounds
  deriving DecidableEq

abbrev MemoryMapInsertResult := Except MemoryMapError Unit

/-- One registered binding, from struct MemoryMapEntry in memory_map.rs. -/
structure MemoryMapEntry where
  name : String
  device : Device
  size : Nat
  offset : Nat
  deriving DecidableEq

/-- The address space router, from struct MemoryMap in memory_map.rs. -/
structure MemoryMap where
  devices : List MemoryMapEntry
  deriving DecidableEq

/-- MemoryMap::new. -/
def MemoryMap.new : MemoryMap :=
  { devices := [] }

/-- MemoryMap::count. -/
def MemoryMap.count (m : MemoryMap) : Nat :=
  m.devices.length

/-- The scan loop of MemoryMap::read: first entry whose half open range
contains the address handles the request; otherwise Unmapped. -/
def readEntries : List MemoryMapEntry → Nat → Option MemoryReadResult
  | [], _ => some (Except.error MemoryError.Unmapped)
  | e :: rest, a =>
      if e.offset ≤ a ∧ a < e.offset + e.size then e.device.read a
      else readEntries rest a

/-- MemoryMap::read. -/
def MemoryMap.read (m : MemoryMap) (address : Nat) : Option MemoryReadResult :=
  readEntries m.devices address

/-- The scan loop of MemoryMap::write: the matched entry is updated in place
with the state returned by the delegated write. -/
def writeEntries : List MemoryMapEntry → Nat → Nat →
    Option (List MemoryMapEntry × MemoryWriteResult)
  | [], _, _ => some ([], Except.error MemoryError.Unmapped)
  | e :: rest, a, v =>
      if e.offset ≤ a ∧ a < e.offset + e.size then
        match e.device.write a v with
        | some p => some ({ e with device := p.1 } :: rest, p.2)
        | none => none
      else
        (writeEntries rest a v).map fun q => (e :: q.1, q.2)

/-- MemoryMap::write. -/
def MemoryMap.write (m : MemoryMap) (address value : Nat) :
    Option (MemoryMap × MemoryWriteResult) :=
  (writeEntries m.devices address value).map fun q => ({ devices := q.1 }, q.2)

/-- The loop body of the validation in MemoryMap::insert: the two checks made
against one existing entry, exactly as written in the source. -/
def entryOverlaps (e : MemoryMapEntry) (size offset : Nat) : Bool :=
  (decide (e.offset ≤ offset) && decide (offset < e.offset + e.size)) ||
  (decide (e.offset < offset + size) && decide (offset + size ≤ e.offset + e.size))

/-- MemoryMap::insert: reject when some existing entry trips either check,
otherwise push a new entry at the end. -/
def MemoryMap.insert (m : MemoryMap) (name : String) (device : Device)
    (size offset : Nat) : MemoryMap × MemoryMapInsertResult :=
  if m.devices.any fun e => entryOverlaps e size offset then
    (m, Except.error MemoryMapError.Overlap)
  else
    ({ devices := m.devices ++
        [{ name := name, device := device, size := size, offset := offset }] },
     Except.ok ())

/-- MemoryMap::create: build a zero filled device of the requested kind (RAM
and MMIO both become a RAM value) and insert it. -/
def MemoryMap.create (m : MemoryMap) (name : String) (memory_type : MemoryType)
    (size offset : Nat) : MemoryMap × MemoryMapInsertResult :=
  let memory : Device :=
    match memory_type with
    | MemoryType.RAM | MemoryType.MMIO =>
        Device.ram (RAM.new (List.replicate size 0) size offset)
    | MemoryType.ROM =>
        Device.rom (ROM.new (List.replicate size 0) size offset)
  m.insert name memory size offset

end Remu6502

namespace Remu6502

/-! Helper lemmas about the load copy loop. -/

lemma foldl_set_length (src : List Nat) (l : List Nat) :
    ∀ dst : List Nat,
      (l.foldl (fun acc i => acc.set i (src.getD i 0)) dst).length = dst.length := by
  induction l with
  | nil => intro dst; rfl
  | cons x xs ih =>
      intro dst
      rw [List.foldl_cons, ih, List.length_set]

lemma copyLoop_length (dst src : List Nat) :
    (copyLoop dst src).length = dst.length := by
  unfold copyLoop
  exact foldl_set_length src (List.range src.length) dst

lemma copyLoop_aux (src : List Nat) :
    ∀ (k : Nat) (dst : List Nat), k ≤ src.length → k ≤ dst.length →
      (List.range k).foldl (fun acc i => acc.set i (src.getD i 0)) dst
        = src.take k ++ dst.drop k := by
  intro k
  induction k with
  | zero => intro dst _ _; simp
  | succ n ih =>
      intro dst h1 h2
      have hn1 : n < src.length := h1
      have hn2 : n < dst.length := h2
      rw [List.range_succ, List.foldl_append,
        ih dst (Nat.le_of_succ_le h1) (Nat.le_of_succ_le h2),
        List.foldl_cons, List.foldl_nil, List.set_append]
      have hlen : (src.take n).length = n := by
        simp [List.length_take, Nat.min_eq_left (Nat.le_of_lt hn1)]
      have hdrop : dst.drop n = dst[n] :: dst.drop (n + 1) :=
        List.drop_eq_getElem_cons hn2
      have hgetD : src.getD n 0 = src[n] := by
        simp [List.getD_eq_getElem?_getD, List.getElem?_eq_getElem hn1]
      rw [hlen, if_neg (by omega), Nat.sub_self, hdrop, hgetD, List.set_cons_zero,
        List.take_succ, List.getElem?_eq_getElem hn1, Option.toList_some,
        List.append_assoc, List.singleton_append]

lemma copyLoop_replicate (src : List Nat) (n : Nat) (h : src.length ≤ n) :
    copyLoop (List.replicate n 0) src = src ++ List.replicate (n - src.length) 0 := by
  unfold copyLoop
  rw [copyLoop_aux src src.length (List.replicate n 0) le_rfl (by simp [h])]
  rw [List.take_length, List.drop_replicate]

/-- The state and result of ROM::load on an image that fits. -/
lemma rom_load_ok_eq (r : ROM) (img : List Nat) (h : img.length ≤ r.size) :
    r.load img =
      ({ r with data := img ++ List.replicate (r.size - img.length) 0 }, Except.ok ()) := by
  unfold ROM.load
  rw [if_neg (by omega), copyLoop_replicate img r.size h]

/-- The state and result of RAM::load on an image that fits. -/
lemma ram_load_ok_eq (r : RAM) (img : List Nat) (h : img.length ≤ r.size) :
    r.load img =
      ({ r with data := img ++ List.replicate (r.size - img.length) 0 }, Except.ok ()) := by
  unfold RAM.load
  rw [if_neg (by omega), copyLoop_replicate img r.size h]

end Remu6502

namespace Remu6502

/-- Claim C1: the router is claimed to keep all registered half open ranges
disjoint and to answer Overlap to any intersecting registration. The two
checks in MemoryMap::insert miss the case where the new range strictly
contains an existing one: starting from an empty map, registering a device
over the range 2 to 3 and then a device over the range 0 to 4 both succeed,
count becomes 2, and the two registered ranges intersect at address 2. This
contradicts the stated invariant and the intent of the validation comment in
the source. -/
theorem C1_router_overlap_bug :
    (MemoryMap.new.create "A" MemoryType.RAM 1 2).2 = Except.ok () ∧
    ((MemoryMap.new.create "A" MemoryType.RAM 1 2).1.create
        "B" MemoryType.RAM 4 0).2 = Except.ok () ∧
    ((MemoryMap.new.create "A" MemoryType.RAM 1 2).1.create
        "B" MemoryType.RAM 4 0).1.count = 2 ∧
    (((MemoryMap.new.create "A" MemoryType.RAM 1 2).1.create
        "B" MemoryType.RAM 4 0).1.devices.map fun e => (e.offset, e.size))
      = [(2, 1), (0, 4)] ∧
    (2 ≤ 2 ∧ 2 < 2 + 1) ∧ (0 ≤ 2 ∧ 2 < 0 + 4) := by
  decide

/-- Claim C2 counterexample: ROM::new stores a short initial image as given,
with no zero padding and no rejection, so a ROM constructed from an empty
image with size 4 has storage length 0, not 4. -/
theorem C2_cex_ctor_no_padding :
    (ROM.new [] 4 0).data.length ≠ (ROM.new [] 4 0).size := by
  decide

/-- Claim C2 (amended): the storage length invariant holds after every
successful load: loading an image no longer than size leaves the storage of
a ROM or RAM device with length exactly size. The raw constructors perform
no padding, rejection, or length check, so after construction the invariant
holds only when the caller supplies an image whose length already equals
size, as the router factory does. -/
theorem C2_storage_length_after_load (r : ROM) (s : RAM) (img img' : List Nat)
    (h : img.length ≤ r.size) (h' : img'.length ≤ s.size) :
    ((r.load img).1.data.length = (r.load img).1.size ∧
     (s.load img').1.data.length = (s.load img').1.size) := by
  rw [rom_load_ok_eq r img h, ram_load_ok_eq s img' h']
  constructor
  · simp [List.length_append, List.length_replicate]
    omega
  · simp [List.length_append, List.length_replicate]
    omega

/-- Claim C2 witness: the amended statement evaluated at concrete devices. -/
theorem C2_storage_length_after_load_witness :
    (((ROM.new [1, 2] 4 0).load [9]).1.data.length
        = ((ROM.new [1, 2] 4 0).load [9]).1.size ∧
     ((RAM.new [] 2 0).load []).1.data.length
        = ((RAM.new [] 2 0).load []).1.size) :=
  C2_storage_length_after_load (ROM.new [1, 2] 4 0) (RAM.new [] 2 0) [9] []
    (by decide) (by decide)

/-- Claim C6: ROM::write always succeeds, never mutates the device state, and
therefore leaves every subsequent read unchanged, for every address in or out
of range and every value. -/
theorem C6_rom_write_noop (r : ROM) (a v b : Nat) :
    (r.write a v).2 = Except.ok () ∧ (r.write a v).1.read b = r.read b :=
  ⟨rfl, rfl⟩

/-- Claim C8: loading an image strictly longer than size is rejected with
OutOfBounds before any mutation, for ROM and RAM alike: the returned state is
exactly the prior device value. -/
theorem C8_load_reject_atomic (r : ROM) (s : RAM) (img img' : List Nat)
    (h : img.length > r.size) (h' : img'.length > s.size) :
    r.load img = (r, Except.error MemoryError.OutOfBounds) ∧
    s.load img' = (s, Except.error MemoryError.OutOfBounds) := by
  constructor
  · unfold ROM.load
    rw [if_pos h]
  · unfold RAM.load
    rw [if_pos h']

/-- Claim C8 witness: the rejection evaluated at concrete devices. -/
theorem C8_load_reject_atomic_witness :
    (ROM.new [1, 2] 1 0).load [5, 6]
        = (ROM.new [1, 2] 1 0, Except.error MemoryError.OutOfBounds) ∧
    (RAM.new [] 0 7).load [3]
        = (RAM.new [] 0 7, Except.error MemoryError.OutOfBounds) :=
  C8_load_reject_atomic (ROM.new [1, 2] 1 0) (RAM.new [] 0 7) [5, 6] [3]
    (by decide) (by decide)

end Remu6502

namespace Remu6502

/-- Claim C4 counterexample: a ROM whose backing vector is shorter than its
declared size (the constructor allows this, see claim C2) panics on an
in range read instead of returning the stored byte: address 0 satisfies the
bounds check of ROM::new [] with size 1 at offset 0, yet read returns neither
a byte nor OutOfBounds. -/
theorem C4_cex_read_panics_in_range :
    ((0 : Nat) ≤ 0 ∧ (0 : Nat) < 0 + 1) ∧ (ROM.new [] 1 0).read 0 = none := by
  decide

/-- Claim C4 (amended): for every ROM or RAM device whose storage length
equals its size, read at address a returns the stored byte at index
a - base_offset exactly when base_offset is at most a and a is below
base_offset + size, and returns OutOfBounds otherwise. -/
theorem C4_read_bounds (r : ROM) (s : RAM) (a b : Nat)
    (hr : r.data.length = r.size) (hs : s.data.length = s.size) :
    (r.read a = if r.offset ≤ a ∧ a < r.offset + r.size
        then some (Except.ok (r.data.getD (a - r.offset) 0))
        else some (Except.error MemoryError.OutOfBounds)) ∧
    (s.read b = if s.offset ≤ b ∧ b < s.offset + s.size
        then some (Except.ok (s.data.getD (b - s.offset) 0))
        else some (Except.error MemoryError.OutOfBounds)) := by
  constructor
  · unfold ROM.read
    by_cases h : r.offset ≤ a ∧ a < r.offset + r.size
    · rw [if_pos h, if_pos h]
      have hidx : a - r.offset < r.data.length := by omega
      rw [List.getElem?_eq_getElem hidx]
      simp [List.getD_eq_getElem?_getD, List.getElem?_eq_getElem hidx]
    · rw [if_neg h, if_neg h]
  · unfold RAM.read
    by_cases h : s.offset ≤ b ∧ b < s.offset + s.size
    · rw [if_pos h, if_pos h]
      have hidx : b - s.offset < s.data.length := by omega
      rw [List.getElem?_eq_getElem hidx]
      simp [List.getD_eq_getElem?_getD, List.getElem?_eq_getElem hidx]
    · rw [if_neg h, if_neg h]

/-- Claim C4 witness: the amended statement evaluated at concrete devices,
one in range success and one OutOfBounds rejection. -/
theorem C4_read_bounds_witness :
    ((ROM.new [5] 1 0).read 0 = if (0 : Nat) ≤ 0 ∧ (0 : Nat) < 0 + 1
        then some (Except.ok ((ROM.new [5] 1 0).data.getD (0 - 0) 0))
        else some (Except.error MemoryError.OutOfBounds)) ∧
    ((RAM.new [9] 1 4).read 2 = if (4 : Nat) ≤ 2 ∧ (2 : Nat) < 4 + 1
        then some (Except.ok ((RAM.new [9] 1 4).data.getD (2 - 4) 0))
        else some (Except.error MemoryError.OutOfBounds)) :=
  C4_read_bounds (ROM.new [5] 1 0) (RAM.new [9] 1 4) 0 2 (by decide) (by decide)

/-- Claim C7 counterexample: a RAM whose backing vector is shorter than its
declared size (the constructor allows this, see claim C2) panics on an
in range write instead of succeeding: address 0 is inside the declared range
of RAM::new [] with size 1 at offset 0, yet the write returns neither
success nor an error. -/
theorem C7_cex_write_panics_in_range :
    ((0 : Nat) ≤ 0 ∧ (0 : Nat) < 0 + 1) ∧ (RAM.new [] 1 0).write 0 5 = none := by
  decide

/-- Claim C7 (amended): for every RAM device whose storage length equals its
size, every in range address and every value, the write succeeds, the new
state stores the value at index a - base_offset, and reading the same
address afterwards returns exactly that value. -/
theorem C7_ram_write_then_read (s : RAM) (a v : Nat)
    (hlen : s.data.length = s.size)
    (ha : s.offset ≤ a ∧ a < s.offset + s.size) :
    s.write a v = some ({ s with data := s.data.set (a - s.offset) v }, Except.ok ()) ∧
    RAM.read { s with data := s.data.set (a - s.offset) v } a = some (Except.ok v) := by
  have hidx : a - s.offset < s.data.length := by omega
  constructor
  · unfold RAM.write
    rw [if_pos ha, if_pos hidx]
  · unfold RAM.read
    simp only [if_pos ha]
    rw [List.getElem?_set_self hidx]

/-- Claim C7 witness: write then read evaluated at a concrete device. -/
theorem C7_ram_write_then_read_witness :
    (RAM.new [0] 1 0).write 0 7 = some (RAM.new [7] 1 0, Except.ok ()) ∧
    (RAM.new [7] 1 0).read 0 = some (Except.ok 7) := by
  simpa using C7_ram_write_then_read (RAM.new [0] 1 0) 0 7 (by decide) (by decide)

/-- Claim C9: loading an image no longer than size succeeds, copies the image
onto the low indices in order, and zero fills the remainder, so reading
base_offset + i for i between the image length and size returns 0, for ROM
and RAM alike. -/
theorem C9_load_zero_pads (r : ROM) (s : RAM) (img img' : List Nat)
    (h : img.length ≤ r.size) (h' : img'.length ≤ s.size) :
    ((r.load img).2 = Except.ok () ∧
     (∀ i, i < img.length → (r.load img).1.data[i]? = img[i]?) ∧
     (∀ i, img.length ≤ i → i < r.size →
        (r.load img).1.read (r.offset + i) = some (Except.ok 0))) ∧
    ((s.load img').2 = Except.ok () ∧
     (∀ i, i < img'.length → (s.load img').1.data[i]? = img'[i]?) ∧
     (∀ i, img'.length ≤ i → i < s.size →
        (s.load img').1.read (s.offset + i) = some (Except.ok 0))) := by
  rw [rom_load_ok_eq r img h, ram_load_ok_eq s img' h']
  refine ⟨⟨rfl, ?_, ?_⟩, rfl, ?_, ?_⟩
  · intro i hi
    exact List.getElem?_append_left hi
  · intro i h1 h2
    unfold ROM.read
    rw [if_pos (show r.offset ≤ r.offset + i ∧ r.offset + i < r.offset + r.size by omega)]
    have e1 : r.offset + i - r.offset = i := by omega
    rw [e1, List.getElem?_append_right h1,
      List.getElem?_replicate_of_lt (by omega : i - img.length < r.size - img.length)]
  · intro i hi
    exact List.getElem?_append_left hi
  · intro i h1 h2
    unfold RAM.read
    rw [if_pos (show s.offset ≤ s.offset + i ∧ s.offset + i < s.offset + s.size by omega)]
    have e1 : s.offset + i - s.offset = i := by omega
    rw [e1, List.getElem?_append_right h1,
      List.getElem?_replicate_of_lt (by omega : i - img'.length < s.size - img'.length)]

/-- Claim C9 witness: zero padding load evaluated at concrete devices. -/
theorem C9_load_zero_pads_witness :
    (((ROM.new [1, 2, 3] 3 16).load [7]).2 = Except.ok () ∧
     (∀ i, i < 1 → ((ROM.new [1, 2, 3] 3 16).load [7]).1.data[i]? = [(7 : Nat)][i]?) ∧
     (∀ i, 1 ≤ i → i < 3 →
        ((ROM.new [1, 2, 3] 3 16).load [7]).1.read (16 + i) = some (Except.ok 0))) ∧
    (((RAM.new [] 2 0).load []).2 = Except.ok () ∧
     (∀ i, i < 0 → ((RAM.new [] 2 0).load []).1.data[i]? = ([] : List Nat)[i]?) ∧
     (∀ i, 0 ≤ i → i < 2 →
        ((RAM.new [] 2 0).load []).1.read (0 + i) = some (Except.ok 0))) :=
  C9_load_zero_pads (ROM.new [1, 2, 3] 3 16) (RAM.new [] 2 0) [7] []
    (by decide) (by decide)

end Remu6502

namespace Remu6502

/-- Claim C3 counterexample: the Index implementations truncate the u32 base
offset to u16 before subtracting. A ROM whose storage length equals its size
but whose offset is 65536 answers indexed reads at addresses far outside its
half open range: address 0 is outside the range starting at 65536, yet the
indexed read returns the stored byte 170 instead of aborting. -/
theorem C3_cex_index_returns_byte :
    ¬ ((65536 : Nat) ≤ 0 ∧ (0 : Nat) < 65536 + 1) ∧
    (ROM.new [170] 1 65536).index 0 = some 170 := by
  decide

/-- Claim C3 (amended): for devices whose storage length equals their size
and whose range fits inside the 16 bit address space (base_offset + size at
most 65536), every indexed access at an address outside the half open range
panics: indexed ROM reads, indexed RAM reads, and indexed RAM writes all
abort instead of returning. -/
theorem C3_index_out_of_range_aborts (r : ROM) (s : RAM) (a b v : Nat)
    (hr1 : r.data.length = r.size) (hr2 : r.offset + r.size ≤ 65536)
    (ha : ¬ (r.offset ≤ a ∧ a < r.offset + r.size))
    (hs1 : s.data.length = s.size) (hs2 : s.offset + s.size ≤ 65536)
    (hb : ¬ (s.offset ≤ b ∧ b < s.offset + s.size)) :
    r.index a = none ∧ s.index b = none ∧ s.index_mut_set b v = none := by
  have hrlen : r.data.length ≤ a - r.offset % 65536 ∨ a < r.offset % 65536 := by
    rcases Nat.lt_or_ge r.offset 65536 with hcase | hcase
    · have ho : r.offset % 65536 = r.offset := Nat.mod_eq_of_lt hcase
      omega
    · have ho : r.offset = 65536 := by omega
      have ho2 : r.offset % 65536 = 0 := by omega
      omega
  have hslen : s.data.length ≤ b - s.offset % 65536 ∨ b < s.offset % 65536 := by
    rcases Nat.lt_or_ge s.offset 65536 with hcase | hcase
    · have ho : s.offset % 65536 = s.offset := Nat.mod_eq_of_lt hcase
      omega
    · have ho : s.offset = 65536 := by omega
      have ho2 : s.offset % 65536 = 0 := by omega
      omega
  refine ⟨?_, ?_, ?_⟩
  · unfold ROM.index
    by_cases hlt : a < r.offset % 65536
    · rw [if_pos hlt]
    · rw [if_neg hlt]
      exact List.getElem?_eq_none (by omega)
  · unfold RAM.index
    by_cases hlt : b < s.offset % 65536
    · rw [if_pos hlt]
    · rw [if_neg hlt]
      exact List.getElem?_eq_none (by omega)
  · unfold RAM.index_mut_set
    by_cases hlt : b < s.offset % 65536
    · rw [if_pos hlt]
    · rw [if_neg hlt, if_neg (by omega)]

/-- Claim C3 witness: out of range indexed accesses abort on concrete
devices, one below the range (subtraction underflow) and one above it
(vector bounds). -/
theorem C3_index_out_of_range_aborts_witness :
    (ROM.new [7] 1 4096).index 0 = none ∧
    (RAM.new [7] 1 4096).index 4097 = none ∧
    (RAM.new [7] 1 4096).index_mut_set 4097 5 = none :=
  C3_index_out_of_range_aborts (ROM.new [7] 1 4096) (RAM.new [7] 1 4096) 0 4097 5
    (by decide) (by decide) (by decide) (by decide) (by decide) (by decide)

/-! Helper lemmas about the router scan loops. -/

lemma readEntries_first (a : Nat) (e : MemoryMapEntry) :
    ∀ l : List MemoryMapEntry, e ∈ l →
      (e.offset ≤ a ∧ a < e.offset + e.size) →
      (∀ e2 ∈ l, e2.offset ≤ a ∧ a < e2.offset + e2.size → e2 = e) →
      readEntries l a = e.device.read a := by
  intro l
  induction l with
  | nil => intro h; exact absurd h (List.not_mem_nil e)
  | cons f rest ih =>
      intro hmem hin huniq
      unfold readEntries
      by_cases hf : f.offset ≤ a ∧ a < f.offset + f.size
      · rw [if_pos hf, huniq f (List.mem_cons_self f rest) hf]
      · rw [if_neg hf]
        have hne : e ≠ f := fun h => hf (h ▸ hin)
        have hmem2 : e ∈ rest := by
          rcases List.mem_cons.mp hmem with h | h
          · exact absurd h hne
          · exact h
        exact ih hmem2 hin fun e2 h2 hin2 => huniq e2 (List.mem_cons_of_mem f h2) hin2

lemma writeEntries_first (a v : Nat) (e : MemoryMapEntry) :
    ∀ l : List MemoryMapEntry, e ∈ l →
      (e.offset ≤ a ∧ a < e.offset + e.size) →
      (∀ e2 ∈ l, e2.offset ≤ a ∧ a < e2.offset + e2.size → e2 = e) →
      (writeEntries l a v).map (fun q => q.2) = (e.device.write a v).map fun p => p.2 := by
  intro l
  induction l with
  | nil => intro h; exact absurd h (List.not_mem_nil e)
  | cons f rest ih =>
      intro hmem hin huniq
      unfold writeEntries
      by_cases hf : f.offset ≤ a ∧ a < f.offset + f.size
      · rw [if_pos hf, huniq f (List.mem_cons_self f rest) hf]
        cases hw : e.device.write a v with
        | none => simp [hw]
        | some p => simp [hw]
      · rw [if_neg hf]
        have hne : e ≠ f := fun h => hf (h ▸ hin)
        have hmem2 : e ∈ rest := by
          rcases List.mem_cons.mp hmem with h | h
          · exact absurd h hne
          · exact h
        have hfg : ((fun q : List MemoryMapEntry × MemoryWriteResult => q.2) ∘
            fun q : List MemoryMapEntry × MemoryWriteResult => (f :: q.1, q.2))
            = fun q : List MemoryMapEntry × MemoryWriteResult => q.2 := rfl
        rw [Option.map_map, hfg]
        exact ih hmem2 hin fun e2 h2 hin2 => huniq e2 (List.mem_cons_of_mem f h2) hin2

lemma readEntries_unmapped (a : Nat) :
    ∀ l : List MemoryMapEntry,
      (∀ e ∈ l, ¬ (e.offset ≤ a ∧ a < e.offset + e.size)) →
      readEntries l a = some (Except.error MemoryError.Unmapped) := by
  intro l
  induction l with
  | nil => intro _; rfl
  | cons f rest ih =>
      intro h
      unfold readEntries
      rw [if_neg (h f (List.mem_cons_self f rest))]
      exact ih fun e he => h e (List.mem_cons_of_mem f he)

lemma writeEntries_unmapped (a v : Nat) :
    ∀ l : List MemoryMapEntry,
      (∀ e ∈ l, ¬ (e.offset ≤ a ∧ a < e.offset + e.size)) →
      writeEntries l a v = some (l, Except.error MemoryError.Unmapped) := by
  intro l
  induction l with
  | nil => intro _; rfl
  | cons f rest ih =>
      intro h
      unfold writeEntries
      rw [if_neg (h f (List.mem_cons_self f rest))]
      rw [ih fun e he => h e (List.mem_cons_of_mem f he)]
      rfl

/-- Claim C5: router dispatch. When an address lies inside the range of
exactly one registered entry, the router read returns exactly that entry
device read, and the router write returns exactly that entry device write
result. When the address lies in no registered range, including the empty
router, read and write return Unmapped and the write leaves the map
unchanged. -/
theorem C5_router_dispatch (m : MemoryMap) (a v : Nat) :
    (∀ e : MemoryMapEntry, e ∈ m.devices →
      (e.offset ≤ a ∧ a < e.offset + e.size) →
      (∀ e2 ∈ m.devices, e2.offset ≤ a ∧ a < e2.offset + e2.size → e2 = e) →
      m.read a = e.device.read a ∧
      (m.write a v).map (fun q => q.2) = (e.device.write a v).map fun p => p.2) ∧
    ((∀ e ∈ m.devices, ¬ (e.offset ≤ a ∧ a < e.offset + e.size)) →
      m.read a = some (Except.error MemoryError.Unmapped) ∧
      m.write a v = some (m, Except.error MemoryError.Unmapped)) := by
  constructor
  · intro e hmem hin huniq
    refine ⟨readEntries_first a e m.devices hmem hin huniq, ?_⟩
    unfold MemoryMap.write
    have hfg : ((fun q : MemoryMap × MemoryWriteResult => q.2) ∘
        fun q : List MemoryMapEntry × MemoryWriteResult => ({ devices := q.1 }, q.2))
        = fun q : List MemoryMapEntry × MemoryWriteResult => q.2 := rfl
    rw [Option.map_map, hfg]
    exact writeEntries_first a v e m.devices hmem hin huniq
  · intro hnone
    refine ⟨readEntries_unmapped a m.devices hnone, ?_⟩
    unfold MemoryMap.write
    rw [writeEntries_unmapped a v m.devices hnone]
    rfl

/-- Claim C5 witness: dispatch evaluated on a concrete one entry router at a
mapped address. -/
theorem C5_router_dispatch_witness :
    (MemoryMap.new.create "R" MemoryType.RAM 2 0).1.read 1
      = (Device.ram (RAM.new (List.replicate 2 0) 2 0)).read 1 ∧
    (((MemoryMap.new.create "R" MemoryType.RAM 2 0).1.write 1 9).map fun q => q.2)
      = ((Device.ram (RAM.new (List.replicate 2 0) 2 0)).write 1 9).map fun p => p.2 :=
  (C5_router_dispatch (MemoryMap.new.create "R" MemoryType.RAM 2 0).1 1 9).1
    { name := "R", device := Device.ram (RAM.new (List.replicate 2 0) 2 0),
      size := 2, offset := 0 }
    (by decide) (by decide) (by decide)

/-- Claim C10: a create request with kind MMIO registers a plain RAM device:
the whole router state and result coincide with those of a create request
with kind RAM, the appended entry holds a RAM value built from a zero image,
and its type_of answers RAM, so the requested MMIO tag is preserved nowhere. -/
theorem C10_mmio_collapses_to_ram (m : MemoryMap) (n : String) (sz off : Nat) :
    m.create n MemoryType.MMIO sz off = m.create n MemoryType.RAM sz off ∧
    ((m.create n MemoryType.MMIO sz off).2 = Except.ok () →
      (m.create n MemoryType.MMIO sz off).1.devices
        = m.devices ++ [{ name := n,
                          device := Device.ram (RAM.new (List.replicate sz 0) sz off),
                          size := sz, offset := off }] ∧
      (Device.ram (RAM.new (List.replicate sz 0) sz off)).type_of = MemoryType.RAM) := by
  constructor
  · rfl
  · intro hok
    have hcr : m.create n MemoryType.MMIO sz off
        = m.insert n (Device.ram (RAM.new (List.replicate sz 0) sz off)) sz off := rfl
    rw [hcr] at hok ⊢
    unfold MemoryMap.insert at hok ⊢
    by_cases hc : m.devices.any fun e => entryOverlaps e sz off
    · rw [if_pos hc] at hok
      simp at hok
    · rw [if_neg hc]
      exact ⟨rfl, rfl⟩

/-- Claim C10 witness: a concrete MMIO create request appends a RAM entry. -/
theorem C10_mmio_collapses_to_ram_witness :
    (MemoryMap.new.create "IO" MemoryType.MMIO 2 4).1.devices
      = MemoryMap.new.devices ++ [{ name := "IO",
                                    device := Device.ram (RAM.new (List.replicate 2 0) 2 4),
                                    size := 2, offset := 4 }] ∧
    (Device.ram (RAM.new (List.replicate 2 0) 2 4)).type_of = MemoryType.RAM :=
  (C10_mmio_collapses_to_ram MemoryMap.new "IO" 2 4).2 (by decide)

end Remu6502
